import Mathlib

/-!
# Verification of the `Lineq` constraint-layout solver (`lcapy/schemlineqplacer.py`)

Shallow embedding of the one-dimensional constraint-layout solver: the
`Constraint` store built by `Lineq.add`, and the linear-system pipeline of
`Lineq.solve`.  Node identifiers are natural numbers, distances are rationals
(the Python code works with machine floats, but every input considered here
stays within exactly representable small values, so `ℚ` is a faithful model of
the arithmetic actually performed).

The external `Cnodes` union-find collaborator is not part of the repository
core; following its documented interface it is modelled by an explicit
raw-node → canonical-node translation (`cn` for `add`, the `items` association
list for `solve`).  The `scipy.linalg.lu` factorization routine is likewise
external and is modelled from the spec as Gaussian elimination with partial
pivoting, returning the upper-triangular factor.
-/

namespace SchemLineq

/-- Embedding of the Python `Constraint` object (`size`, `stretch`). -/
structure Constraint where
  size : ℚ
  stretch : Bool
deriving DecidableEq, Repr

/-- A constraint key: ordered pair of canonical nodes. -/
abbrev Key := ℕ × ℕ

/-- Embedding of the `Constraints` dict: an insertion-ordered association
list, as Python dicts preserve insertion order and in-place overwrite. -/
abbrev Constraints := List (Key × Constraint)

/-- Dict lookup. -/
def lookupC : Constraints → Key → Option Constraint
  | [], _ => none
  | (k, c) :: rest, k2 => if k = k2 then some c else lookupC rest k2

/-- Dict membership test (`key in self.constraints`). -/
def hasKey (cs : Constraints) (k : Key) : Bool :=
  (lookupC cs k).isSome

/-- Dict assignment `self.constraints[key] = constraint`: overwrite in place
(keeping the key's position) if present, else append. -/
def setValue (cs : Constraints) (k : Key) (c : Constraint) : Constraints :=
  match cs with
  | [] => [(k, c)]
  | (k2, c2) :: rest =>
    if k2 = k then (k, c) :: rest else (k2, c2) :: setValue rest k c

/-- Python's `abs` on the rational model. -/
def rabs (q : ℚ) : ℚ := if q < 0 then -q else q

/-- The error raised by `Lineq.add` at lines 81-82: incompatible fixed
constraints; carries the incoming size then the existing size, in the order
of the Python format string. -/
inductive AddError where
  | incompatible (incoming existing : ℚ)
deriving DecidableEq, Repr

/-- Lines 62-87 of `Lineq.add`: everything after the zero/negative-size
normalization.  `cn` models the external `Cnodes` lookup (a raw node is
translated to its canonical node; unlinked nodes map to themselves).
The `lookupC _ _ = none` branch is unreachable: one of `key`, `key2` is
present whenever the fresh-insert guard fails. -/
def addNorm (cn : ℕ → ℕ) (cs : Constraints) (n1 n2 : ℕ) (size : ℚ)
    (stretch : Bool) : Constraints × Option AddError :=
  let m1 := cn n1
  let m2 := cn n2
  let key : Key := (m1, m2)
  let key2 : Key := (m2, m1)
  if ¬ hasKey cs key ∧ ¬ hasKey cs key2 then
    (setValue cs key ⟨size, stretch⟩, none)
  else
    let size2 := if hasKey cs key2 then -size else size
    let keyF := if hasKey cs key2 then key2 else key
    match lookupC cs keyF with
    | none => (cs, none)
    | some c2 =>
      if c2.stretch = false then
        if stretch = false ∧ c2.size ≠ size2 then
          (cs, some (.incompatible size2 c2.size))
        else
          (setValue cs keyF ⟨size2, stretch⟩, none)
      else
        if rabs size2 > rabs c2.size then
          (setValue cs keyF ⟨size2, stretch⟩, none)
        else
          (cs, none)

/-- Embedding of `Lineq.add` (lines 53-87).  The store is passed and returned
explicitly; a raised `ValueError` is modelled as the second component being
`some e`, with the first component the store as the Python object leaves it. -/
def add (cn : ℕ → ℕ) (cs : Constraints) (n1 n2 : ℕ) (size : ℚ)
    (stretch : Bool) : Constraints × Option AddError :=
  if size = 0 then (cs, none)
  else if size < 0 then addNorm cn cs n2 n1 (-size) stretch
  else addNorm cn cs n1 n2 size stretch

/-- A sequence of `add` calls, stopping at the first error (a Python
exception aborts the remaining calls). -/
def addAll (cn : ℕ → ℕ) : Constraints → List (ℕ × ℕ × ℚ × Bool) →
    Constraints × Option AddError
  | cs, [] => (cs, none)
  | cs, (n1, n2, sz, st) :: ops =>
    match add cn cs n1 n2 sz st with
    | (cs2, none) => addAll cn cs2 ops
    | (cs2, some e) => (cs2, some e)

/-! ## The linear-system pipeline of `Lineq.solve` -/

/-- A `Lineq` instance at the time `solve` is called.  `items` models
`self.cnodes.items()`: the external collaborator's stable, insertion-ordered
enumeration of (raw node, canonical node) pairs; `constraints` is the store
built by `add`. -/
structure Lineq where
  items : List (ℕ × ℕ)
  constraints : Constraints
deriving DecidableEq, Repr

/-- A dense matrix of rationals, row-major. -/
abbrev Row := List ℚ

/-- A dense matrix of rationals, row-major. -/
abbrev Mat := List Row

/-- Matrix entry access; out-of-range reads give `0`. -/
def entry (m : Mat) (i j : ℕ) : ℚ := (m.getD i []).getD j 0

/-- Map over a list with the element's index. -/
def mapWithIndex {α β : Type} (f : ℕ → α → β) (l : List α) : List β :=
  List.zipWith f (List.range l.length) l

/-- First index of `a` in `l` (`cnode_map` lookup); `l.length` if absent. -/
def idxIn (l : List ℕ) (a : ℕ) : ℕ := l.findIdx (· == a)

/-- Lines 91-98 of `solve`: `cnode_imap`, the distinct canonical nodes in
first-seen order over `items`; `cnode_map[c]` is the position of `c` here. -/
def cnodeImap (items : List (ℕ × ℕ)) : List ℕ :=
  items.foldl (fun acc p => if p.2 ∈ acc then acc else acc ++ [p.2]) []

/-- `Nnodes` (line 105). -/
def nnodesOf (l : Lineq) : ℕ := (cnodeImap l.items).length

/-- `Nstretches` (lines 100-103). -/
def nstretchOf (l : Lineq) : ℕ :=
  (l.constraints.filter fun kc => kc.2.stretch).length

/-- `Nunknowns = Nnodes - 1 + Nstretches` (line 114). -/
def nunknownsOf (l : Lineq) : ℕ := nnodesOf l - 1 + nstretchOf l

/-- One row of the augmented matrix `W = [A | b]` (lines 123-137): for the
`m`-th constraint, `-1` in the source node's column, `+1` in the target's
(the reference node, index 0, has no column), `-1` in the `s`-th stretch
column when stretchy, and the size in the last column. -/
def constraintRow (imap : List ℕ) (nnodes nunknowns s : ℕ) (key : Key)
    (c : Constraint) : Row :=
  let m1 := idxIn imap key.1
  let m2 := idxIn imap key.2
  let r0 : Row := List.replicate (nunknowns + 1) 0
  let r1 := if m1 ≠ 0 then r0.set (m1 - 1) (-1) else r0
  let r2 := if m2 ≠ 0 then r1.set (m2 - 1) 1 else r1
  let r3 := if c.stretch then r2.set (nnodes - 1 + s) (-1) else r2
  r3.set nunknowns c.size

/-- The augmented matrix `W` (lines 117-140), rows in constraint-store order,
stretch columns allocated in encounter order. -/
def buildW (l : Lineq) : Mat :=
  (l.constraints.foldl
    (fun (acc : Mat × ℕ) kc =>
      (acc.1 ++ [constraintRow (cnodeImap l.items) (nnodesOf l)
          (nunknownsOf l) acc.2 kc.1 kc.2],
       if kc.2.stretch then acc.2 + 1 else acc.2))
    ([], 0)).1

/-- Swap rows `i` and `j` of a matrix. -/
def swapRows (m : Mat) (i j : ℕ) : Mat :=
  let ri := m.getD i []
  let rj := m.getD j []
  (m.set i rj).set j ri

/-- Index, at or below row `k`, of the first row maximizing the absolute
value of the column-`k` entry (the partial-pivoting choice). -/
def argmaxAbs (m : Mat) (k : ℕ) : ℕ :=
  (List.range (m.length - k)).foldl
    (fun best off =>
      let i := k + off
      if rabs (entry m i k) > rabs (entry m best k) then i else best) k

/-- One column step of Gaussian elimination with partial pivoting: pivot the
largest-magnitude entry of column `k` into row `k`, then eliminate the
column below it; a zero pivot leaves the column as is. -/
def luStep (m : Mat) (k : ℕ) : Mat :=
  let p := argmaxAbs m k
  let m2 := swapRows m k p
  let piv := entry m2 k k
  if piv = 0 then m2
  else
    let pr := m2.getD k []
    mapWithIndex
      (fun i row =>
        if k < i then
          List.zipWith (fun a b => a - entry m2 i k / piv * b) row pr
        else row) m2

/-- Modelled from the spec: `scipy.linalg.lu` (line 144), the external
factorization routine, is not part of the repository; per the spec it
produces an upper-triangular factor `U` of the augmented matrix via LU
decomposition with row permutation.  Modelled as Gaussian elimination with
partial pivoting over `ℚ`, keeping all rows. -/
def luUpper (m : Mat) : Mat :=
  (List.range (min m.length (m.headD []).length)).foldl luStep m

/-- The upper-triangular factor of the system of `l` (line 144). -/
def systemU (l : Lineq) : Mat := luUpper (buildW l)

/-- Lines 149-152: the first diagonal position `r < Nnodes - 1` with
`U[r, r] = 0`, if any — the check for a node with no basic variable. -/
def firstBadDiag (nnodes : ℕ) (U : Mat) : Option ℕ :=
  (List.range (nnodes - 1)).find? fun r => decide (entry U r r = 0)

/-- Lines 158-160: rows whose diagonal entry is negative get the entries
from the diagonal onward negated (cosmetic sign normalization). -/
def flipRows (U : Mat) : Mat :=
  mapWithIndex
    (fun r row =>
      if entry U r r < 0 then
        mapWithIndex (fun j v => if r ≤ j then -v else v) row
      else row) U

/-- The sign-normalized factor of the system of `l`. -/
def systemUflip (l : Lineq) : Mat := flipRows (systemU l)

/-- Lines 147-157: the `bound` vector over the `Nunknowns + 1` columns of
`W`: `1` for the first `Nnodes - 1` positions (checked non-zero) and for
every further row index with a non-zero diagonal entry, else `0`. -/
def boundVec (nnodes : ℕ) (U : Mat) (ncols : ℕ) : List ℕ :=
  (List.range ncols).map fun r =>
    if r < nnodes - 1 then 1
    else if r < U.length ∧ entry U r r ≠ 0 then 1
    else 0

/-- The `bound` vector of the system of `l`. -/
def systemBound (l : Lineq) : List ℕ :=
  boundVec (nnodesOf l) (systemUflip l) (nunknownsOf l + 1)

/-- `Nbasic = bound.sum()` (line 162). -/
def nbasicOf (l : Lineq) : ℕ := (systemBound l).sum

/-- Keep the entries of `row` at positions where `bnd` is non-zero
(`U[..., bound != 0]`). -/
def selectCols (bnd : List ℕ) (row : Row) : Row :=
  (row.zip bnd).filterMap fun p => if p.2 ≠ 0 then some p.1 else none

/-- `Ur = U[0:Nbasic, bound != 0]` (line 163). -/
def systemUr (l : Lineq) : Mat :=
  ((systemUflip l).take (nbasicOf l)).map (selectCols (systemBound l))

/-- `br = U[0:Nbasic, -1]` (line 165). -/
def systemBr (l : Lineq) : List ℚ :=
  ((systemUflip l).take (nbasicOf l)).map fun row =>
    row.getD (nunknownsOf l) 0

/-- One elimination step of Gauss-Jordan inversion on the augmented matrix;
`none` when column `k` has no non-zero pivot at or below row `k`. -/
def gjStep (aug : Mat) (k : ℕ) : Option Mat :=
  let p := argmaxAbs aug k
  let a2 := swapRows aug k p
  let piv := entry a2 k k
  if piv = 0 then none
  else
    let pr := (a2.getD k []).map (· / piv)
    some (mapWithIndex
      (fun i row =>
        if i = k then pr
        else List.zipWith (fun a b => a - entry a2 i k * b) row pr) a2)

/-- Modelled from the spec: `scipy.linalg.inv` (line 167), the external
matrix-inversion routine, is not part of the repository; modelled as
Gauss-Jordan elimination over `ℚ`, `none` on a singular input (where the
library routine raises). -/
def invMat (m : Mat) : Option Mat :=
  let n := m.length
  let aug := mapWithIndex
    (fun i row => row ++ (List.range n).map fun j => if j = i then (1 : ℚ) else 0) m
  ((List.range n).foldl (fun acc k => acc.bind fun a => gjStep a k)
      (some aug)).map fun a => a.map fun row => row.drop n

/-- Matrix-vector product (`dot`, line 167). -/
def matVec (m : Mat) (v : List ℚ) : List ℚ :=
  m.map fun row => (List.zipWith (· * ·) row v).sum

/-- `numpy.min` over a non-empty vector (0 on the empty one, unreachable). -/
def listMin : List ℚ → ℚ
  | [] => 0
  | x :: xs => xs.foldl min x

/-- `numpy.max` over a non-empty vector (0 on the empty one, unreachable). -/
def listMax : List ℚ → ℚ
  | [] => 0
  | x :: xs => xs.foldl max x

/-- Errors raised by `solve`: the line-151 `ValueError` (carrying
`cnode_imap[r]`), or the inversion failure of the external routine on a
singular `Ur`. -/
inductive SolveError where
  | noBasicVariable (cnode : ℕ)
  | singular
deriving DecidableEq, Repr

/-- The value a successful `solve` produces: the list of negative-stretch
warning values (the `warn` side channel of lines 174-176, as data), the
node → coordinate mapping, and the width (span). -/
abbrev SolveResult := List ℚ × List (ℕ × ℚ) × ℚ

/-- Lines 168, 178-187: from the solved vector `xx`, the node positions
normalized by the minimum of the `Nnodes - 1` offsets, and the width. -/
def extractPos (l : Lineq) (xx : List ℚ) : List (ℕ × ℚ) × ℚ :=
  let imap := cnodeImap l.items
  let x := xx.take (nnodesOf l - 1)
  let minx := listMin x
  let width := listMax x - minx
  (l.items.map fun p =>
    let m := idxIn imap p.2
    if m = 0 then (p.1, 0 - minx) else (p.1, x.getD (m - 1) 0 - minx),
   width)

/-- Lines 165-187 given the inverse of `Ur`: back-solve, collect the
negative-stretch warnings (lines 174-176), and extract positions/width. -/
def finishSolve (l : Lineq) (Uri : Mat) : SolveResult :=
  let xx := matVec Uri (systemBr l)
  ((xx.drop (nnodesOf l - 1)).filter fun v => decide (v < 0),
   extractPos l xx)

/-- Lines 155-187 of `solve`: everything after the no-basic-variable check. -/
def solveTail (l : Lineq) : Except SolveError SolveResult :=
  match invMat (systemUr l) with
  | none => .error .singular
  | some Uri => .ok (finishSolve l Uri)

/-- Embedding of `Lineq.solve` (lines 89-218, the debug-printing block
excluded as pure output).  Raised `ValueError`s are the `.error` case. -/
def solve (l : Lineq) : Except SolveError SolveResult :=
  if nnodesOf l = 1 then
    .ok ([], l.items.map fun p => (p.1, (0 : ℚ)), 0)
  else
    match firstBadDiag (nnodesOf l) (systemU l) with
    | some r => .error (.noBasicVariable ((cnodeImap l.items).getD r 0))
    | none => solveTail l

/-- Whether a `solve` outcome is the line-151 no-basic-variable error. -/
def isNoBasicError {α : Type} : Except SolveError α → Bool
  | .error (.noBasicVariable _) => true
  | _ => false

/-- Whether one of the first `Nnodes - 1` diagonal entries of the
upper-triangular factor of the system of `l` is zero. -/
def hasZeroDiag (l : Lineq) : Bool :=
  (List.range (nnodesOf l - 1)).any fun r => decide (entry (systemU l) r r = 0)

/-! ## Helper lemmas -/

/-- Membership after a dict assignment: an entry is an old one or the new
binding. -/
theorem mem_setValue {cs : Constraints} {k : Key} {c : Constraint}
    {kc : Key × Constraint} (h : kc ∈ setValue cs k c) :
    kc ∈ cs ∨ kc = (k, c) := by
  induction cs with
  | nil =>
    simp [setValue] at h
    exact Or.inr h
  | cons hd tl ih =>
    rw [setValue] at h
    split at h
    · rcases List.mem_cons.mp h with h1 | h1
      · exact Or.inr h1
      · exact Or.inl (List.mem_cons_of_mem _ h1)
    · rcases List.mem_cons.mp h with h1 | h1
      · exact Or.inl (h1 ▸ List.mem_cons_self _ _)
      · rcases ih h1 with h2 | h2
        · exact Or.inl (List.mem_cons_of_mem _ h2)
        · exact Or.inr h2

/-- `addNorm` with a non-zero size keeps every stored magnitude non-zero. -/
theorem addNorm_nonzero {cn : ℕ → ℕ} {cs : Constraints} {n1 n2 : ℕ}
    {size : ℚ} {st : Bool} {cs2 : Constraints} {e : Option AddError}
    (hinv : ∀ kc ∈ cs, kc.2.size ≠ 0) (hsz : size ≠ 0)
    (h : addNorm cn cs n1 n2 size st = (cs2, e)) :
    ∀ kc ∈ cs2, kc.2.size ≠ 0 := by
  unfold addNorm at h
  dsimp only at h
  repeat' split at h
  all_goals cases h
  all_goals intro kc hkc
  all_goals
    first
    | exact hinv _ hkc
    | (rcases mem_setValue hkc with h2 | h2
       · exact hinv _ h2
       · rw [h2]; simpa using hsz)

/-- `add` keeps every stored magnitude non-zero. -/
theorem add_nonzero {cn : ℕ → ℕ} {cs : Constraints} {n1 n2 : ℕ}
    {size : ℚ} {st : Bool} {cs2 : Constraints} {e : Option AddError}
    (hinv : ∀ kc ∈ cs, kc.2.size ≠ 0)
    (h : add cn cs n1 n2 size st = (cs2, e)) :
    ∀ kc ∈ cs2, kc.2.size ≠ 0 := by
  unfold add at h
  split at h
  · cases h; exact hinv
  · split at h
    · next hne hlt =>
      exact addNorm_nonzero hinv (neg_ne_zero.mpr hne) h
    · next hne hlt =>
      exact addNorm_nonzero hinv hne h

/-- A successful `addAll` keeps every stored magnitude non-zero. -/
theorem addAll_nonzero {cn : ℕ → ℕ} {ops : List (ℕ × ℕ × ℚ × Bool)} :
    ∀ {cs cs2 : Constraints}, (∀ kc ∈ cs, kc.2.size ≠ 0) →
      addAll cn cs ops = (cs2, none) → ∀ kc ∈ cs2, kc.2.size ≠ 0 := by
  induction ops with
  | nil =>
    intro cs cs2 hinv h
    rw [addAll] at h
    cases h
    exact hinv
  | cons op ops ih =>
    intro cs cs2 hinv h
    obtain ⟨n1, n2, sz, st⟩ := op
    rw [addAll] at h
    split at h
    · next cs1 heq =>
      exact ih (add_nonzero hinv heq) h
    · next cs1 e1 heq =>
      simp at h

/-- `addNorm` on the empty store: fresh insert. -/
theorem addNorm_empty (a b : ℕ) (q : ℚ) (st : Bool) :
    addNorm id [] a b q st = ([((a, b), ⟨q, st⟩)], none) := by
  simp [addNorm, hasKey, lookupC, setValue]

/-- `addNorm` against a singleton store, arriving in the stored key's
direction: resolution keeps the incoming size. -/
theorem addNorm_single_fwd {a b : ℕ} (hab : a ≠ b) (c1 : Constraint)
    (q : ℚ) (st : Bool) :
    addNorm id [((a, b), c1)] a b q st =
      if c1.stretch = false then
        if st = false ∧ c1.size ≠ q then
          ([((a, b), c1)], some (.incompatible q c1.size))
        else ([((a, b), ⟨q, st⟩)], none)
      else if rabs q > rabs c1.size then ([((a, b), ⟨q, st⟩)], none)
      else ([((a, b), c1)], none) := by
  simp [addNorm, hasKey, lookupC, setValue, Prod.ext_iff, hab]

/-- `addNorm` against a singleton store, arriving in the reversed key's
direction: the incoming size is negated for resolution and storage. -/
theorem addNorm_single_rev {a b : ℕ} (hab : a ≠ b) (c1 : Constraint)
    (q : ℚ) (st : Bool) :
    addNorm id [((a, b), c1)] b a q st =
      if c1.stretch = false then
        if st = false ∧ c1.size ≠ -q then
          ([((a, b), c1)], some (.incompatible (-q) c1.size))
        else ([((a, b), ⟨-q, st⟩)], none)
      else if rabs (-q) > rabs c1.size then ([((a, b), ⟨-q, st⟩)], none)
      else ([((a, b), c1)], none) := by
  simp [addNorm, hasKey, lookupC, setValue, Prod.ext_iff, hab, Ne.symm hab]

/-- `add` against a singleton store holding the same unordered pair under
`(a, b)`: whatever the sign of the incoming size, the value compared and
stored is exactly `s2` (entry normalization and reversed-key negation
cancel). -/
theorem add_single_resolve {a b : ℕ} (hab : a ≠ b) (c1 : Constraint)
    {s2 : ℚ} (hs2 : s2 ≠ 0) (st : Bool) :
    add id [((a, b), c1)] a b s2 st =
      if c1.stretch = false then
        if st = false ∧ c1.size ≠ s2 then
          ([((a, b), c1)], some (.incompatible s2 c1.size))
        else ([((a, b), ⟨s2, st⟩)], none)
      else if rabs s2 > rabs c1.size then ([((a, b), ⟨s2, st⟩)], none)
      else ([((a, b), c1)], none) := by
  rw [add, if_neg hs2]
  by_cases hlt : s2 < 0
  · rw [if_pos hlt, addNorm_single_rev hab, neg_neg]
  · rw [if_neg hlt, addNorm_single_fwd hab]

/-- When `addNorm` reports an error it returns the store unchanged. -/
theorem addNorm_atomic {cn : ℕ → ℕ} {cs : Constraints} {n1 n2 : ℕ}
    {size : ℚ} {st : Bool} {cs2 : Constraints} {e : AddError}
    (h : addNorm cn cs n1 n2 size st = (cs2, some e)) : cs2 = cs := by
  unfold addNorm at h
  dsimp only at h
  repeat' split at h
  all_goals injection h with h1 h2
  all_goals first
    | exact h1.symm
    | cases h2

/-! ## Claims about `add` (the ConstraintStore) -/

/-- **C3** (corrected), counterexample: two stretchy adds on the same pair
under opposite directions leave a stored `Constraint` with magnitude `-7`,
which is negative — the entry normalization does not make stored magnitudes
non-negative when resolution happens under the reversed key. -/
theorem c3_negative_stored_magnitude :
    addAll id [] [(0, 1, 5, true), (1, 0, 7, true)] =
      ([((0, 1), ⟨-7, true⟩)], none) ∧ ((-7 : ℚ) < 0) := by
  refine ⟨rfl, by norm_num⟩

/-- **C3** (amended): after every sequence of `add` calls that completes
without error, every stored `Constraint` has a non-zero magnitude; the
fresh-insert path stores positive magnitudes, but resolution against an
entry stored under the reversed key negates the incoming magnitude, so
stored magnitudes are not non-negative in general. -/
theorem c3_nonzero_magnitude_invariant :
    ∀ (cn : ℕ → ℕ) (ops : List (ℕ × ℕ × ℚ × Bool)) (cs2 : Constraints),
      addAll cn [] ops = (cs2, none) →
        cs2.all (fun kc => decide (kc.2.size ≠ 0)) = true := by
  intro cn ops cs2 h
  simp only [List.all_eq_true, decide_eq_true_eq]
  exact addAll_nonzero (by simp) h

/-- **C3** witness: the invariant evaluated on the counterexample run
itself — the store holds magnitude `-7`, which is non-zero. -/
theorem c3_witness :
    ([((0, 1), (⟨-7, true⟩ : Constraint))] : Constraints).all
      (fun kc => decide (kc.2.size ≠ 0)) = true :=
  c3_nonzero_magnitude_invariant id [(0, 1, 5, true), (1, 0, 7, true)] _ rfl

/-- **C5**: with a fixed constraint of size `s1` stored for the pair
`(a, b)`, a second fixed `add` on the same pair and direction raises the
incompatible-fixed-constraint error carrying both magnitudes exactly when
the (sign-normalized) incoming magnitude `s2` differs from `s1`, leaving
the store unchanged; with equal magnitude it succeeds and the store still
holds the single fixed constraint of that magnitude. -/
theorem c5_incompatible_fixed :
    ∀ (a b : ℕ) (s1 s2 : ℚ), a ≠ b → s2 ≠ 0 →
      (s2 ≠ s1 →
        add id [((a, b), ⟨s1, false⟩)] a b s2 false =
          ([((a, b), ⟨s1, false⟩)], some (.incompatible s2 s1))) ∧
      (s2 = s1 →
        add id [((a, b), ⟨s1, false⟩)] a b s2 false =
          ([((a, b), ⟨s1, false⟩)], none)) := by
  intro a b s1 s2 hab hs2
  rw [add_single_resolve hab ⟨s1, false⟩ hs2 false]
  constructor
  · intro hne
    rw [if_pos rfl, if_pos ⟨rfl, Ne.symm hne⟩]
  · intro heq
    subst heq
    simp

/-- **C6**: resolution/override rules.  With a fixed constraint stored, an
incoming stretchy constraint overwrites it unconditionally, and an
equal-magnitude fixed one succeeds; with a stretchy constraint stored, the
incoming one overwrites exactly when its absolute magnitude strictly
exceeds the stored one's, and is otherwise discarded; of two stretchy
constraints of magnitudes 3 and 7 on the same pair, the magnitude-7 one
survives in either insertion order. -/
theorem c6_override_rules :
    ∀ (a b : ℕ) (s1 s2 : ℚ) (st2 : Bool), a ≠ b → s2 ≠ 0 →
      (add id [((a, b), ⟨s1, false⟩)] a b s2 true =
        ([((a, b), ⟨s2, true⟩)], none)) ∧
      (add id [((a, b), ⟨s1, false⟩)] a b s1 false =
        ([((a, b), ⟨s1, false⟩)], none)) ∧
      (add id [((a, b), ⟨s1, true⟩)] a b s2 st2 =
        (if rabs s2 > rabs s1 then [((a, b), ⟨s2, st2⟩)]
         else [((a, b), ⟨s1, true⟩)], none)) ∧
      (addAll id [] [(a, b, 3, true), (a, b, 7, true)] =
        ([((a, b), ⟨7, true⟩)], none)) ∧
      (addAll id [] [(a, b, 7, true), (a, b, 3, true)] =
        ([((a, b), ⟨7, true⟩)], none)) := by
  intro a b s1 s2 st2 hab hs2
  have h3 : add id [] a b (3 : ℚ) true = ([((a, b), ⟨3, true⟩)], none) := by
    rw [add, if_neg (by norm_num), if_neg (by norm_num), addNorm_empty]
  have h7 : add id [] a b (7 : ℚ) true = ([((a, b), ⟨7, true⟩)], none) := by
    rw [add, if_neg (by norm_num), if_neg (by norm_num), addNorm_empty]
  have h37 : add id [((a, b), ⟨3, true⟩)] a b (7 : ℚ) true =
      ([((a, b), ⟨7, true⟩)], none) := by
    rw [add_single_resolve hab ⟨3, true⟩ (by norm_num) true]
    norm_num [rabs]
  have h73 : add id [((a, b), ⟨7, true⟩)] a b (3 : ℚ) true =
      ([((a, b), ⟨7, true⟩)], none) := by
    rw [add_single_resolve hab ⟨7, true⟩ (by norm_num) true]
    norm_num [rabs]
  refine ⟨?_, ?_, ?_, ?_, ?_⟩
  · rw [add_single_resolve hab ⟨s1, false⟩ hs2 true]
    simp
  · by_cases h1 : s1 = 0
    · subst h1
      rw [add, if_pos rfl]
    · rw [add_single_resolve hab ⟨s1, false⟩ h1 false]
      simp
  · rw [add_single_resolve hab ⟨s1, true⟩ hs2 st2, if_neg (by simp)]
    split <;> rfl
  · simp only [addAll, h3, h37]
  · simp only [addAll, h7, h73]

/-- **C8**: `add` is atomic on failure — whenever it raises the
incompatible-fixed-constraint error, the returned store is exactly the
pre-call store. -/
theorem c8_add_atomic_on_failure :
    ∀ (cn : ℕ → ℕ) (cs : Constraints) (n1 n2 : ℕ) (size : ℚ) (st : Bool)
      (cs2 : Constraints) (e : AddError),
      add cn cs n1 n2 size st = (cs2, some e) → cs2 = cs := by
  intro cn cs n1 n2 size st cs2 e h
  unfold add at h
  split at h
  · injection h with h1 h2
    cases h2
  · split at h
    · exact addNorm_atomic h
    · exact addNorm_atomic h

/-- **C8** witness: a concrete failing `add` (second fixed constraint of a
different magnitude), with the store returned unchanged. -/
theorem c8_witness :
    add id [((0, 1), ⟨5, false⟩)] 0 1 7 false =
      ([((0, 1), ⟨5, false⟩)], some (.incompatible 7 5)) ∧
    ([((0, 1), (⟨5, false⟩ : Constraint))] : Constraints) =
      [((0, 1), ⟨5, false⟩)] :=
  ⟨rfl, c8_add_atomic_on_failure id [((0, 1), ⟨5, false⟩)] 0 1 7 false
    [((0, 1), ⟨5, false⟩)] (.incompatible 7 5) rfl⟩

/-- **C5** witness: stored fixed size 5; incoming fixed 7 errors with both
magnitudes and incoming fixed 5 succeeds. -/
theorem c5_witness :
    (add id [((0, 1), ⟨5, false⟩)] 0 1 7 false =
      ([((0, 1), ⟨5, false⟩)], some (.incompatible 7 5))) ∧
    (add id [((0, 1), ⟨5, false⟩)] 0 1 5 false =
      ([((0, 1), ⟨5, false⟩)], none)) :=
  ⟨(c5_incompatible_fixed 0 1 5 7 (by decide) (by norm_num)).1 (by norm_num),
   (c5_incompatible_fixed 0 1 5 5 (by decide) (by norm_num)).2 rfl⟩

/-- **C6** witness: the override rules at stored size 5, incoming size 2. -/
theorem c6_witness :
    (add id [((0, 1), ⟨5, false⟩)] 0 1 2 true =
      ([((0, 1), ⟨2, true⟩)], none)) ∧
    (add id [((0, 1), ⟨5, false⟩)] 0 1 5 false =
      ([((0, 1), ⟨5, false⟩)], none)) ∧
    (add id [((0, 1), ⟨5, true⟩)] 0 1 2 false =
      (if rabs 2 > rabs 5 then [((0, 1), ⟨2, false⟩)]
       else [((0, 1), ⟨5, true⟩)], none)) ∧
    (addAll id [] [(0, 1, 3, true), (0, 1, 7, true)] =
      ([((0, 1), ⟨7, true⟩)], none)) ∧
    (addAll id [] [(0, 1, 7, true), (0, 1, 3, true)] =
      ([((0, 1), ⟨7, true⟩)], none)) :=
  c6_override_rules 0 1 5 2 false (by decide) (by norm_num)

/-- **C10**: `add(a, b, 5, fixed)` then `add(b, a, 5, fixed)` — equal
magnitudes, opposite directions — raises the incompatible error: the second
call arrives under the reversed key, its magnitude is negated to `-5`, and
`-5 ≠ 5`; the error reports the compared sizes `-5` and `5`. -/
theorem c10_reversed_equal_fixed_raises :
    addAll id [] [(0, 1, 5, false), (1, 0, 5, false)] =
      ([((0, 1), ⟨5, false⟩)], some (.incompatible (-5) 5)) ∧
    ((-5 : ℚ) ≠ 5) := by
  refine ⟨rfl, by norm_num⟩

/-! ## Claims about `solve` -/

/-- The no-basic-variable error is only raised at the diagonal check; the
tail of `solve` never produces it. -/
theorem solveTail_not_noBasic (l : Lineq) :
    isNoBasicError (solveTail l) = false := by
  unfold solveTail
  split <;> rfl

/-- **C1** (code bug): for two nodes with the single fixed constraint
`add(a, b, 5, fixed)`, `solve` computes the normalizing minimum over the
`Nnodes - 1` solved offsets only, excluding the implicit reference value 0:
the offsets are `[5]`, so `minx = 5` and the returned coordinates are
`a ↦ -5`, `b ↦ 0` — their minimum is `-5`, not 0. -/
theorem c1_normalization_fails :
    (addAll id [] [(0, 1, 5, false)] = ([((0, 1), ⟨5, false⟩)], none)) ∧
    solve ⟨[(0, 0), (1, 1)], [((0, 1), ⟨5, false⟩)]⟩ =
      .ok ([], [(0, -5), (1, 0)], 0) ∧
    ((-5 : ℚ) ≠ 0) :=
  ⟨rfl, by with_unfolding_all rfl, by norm_num⟩

/-- **C2** (code bug): on the same two-node instance the coordinate
difference `coord(b) - coord(a)` is exactly 5 as claimed, but the returned
span is `max(x) - min(x)` over the single offset `[5]`, which is 0, not
the claimed 5. -/
theorem c2_span_fails :
    solve ⟨[(0, 0), (1, 1)], [((0, 1), ⟨5, false⟩)]⟩ =
      .ok ([], [(0, -5), (1, 0)], 0) ∧
    ((0 : ℚ) - (-5) = 5) ∧ ((0 : ℚ) ≠ 5) :=
  ⟨by with_unfolding_all rfl, by norm_num, by norm_num⟩

/-- **C4**: `solve` returns the no-basic-variable error exactly when one of
the first `Nnodes - 1` diagonal entries of the upper-triangular factor is
zero (and an error returns no positions at all, by the shape of the
result); in particular, on four nodes of which node 3 has no constraint
chain to the reference, `solve` fails with that error. -/
theorem c4_no_basic_variable :
    (∀ l : Lineq, nnodesOf l ≠ 1 →
      isNoBasicError (solve l) = hasZeroDiag l) ∧
    solve ⟨[(0, 0), (1, 1), (2, 2), (3, 3)],
           [((0, 1), ⟨5, false⟩), ((1, 2), ⟨5, false⟩),
            ((0, 2), ⟨10, false⟩)]⟩ = .error (.noBasicVariable 2) := by
  constructor
  · intro l h
    cases hf : firstBadDiag (nnodesOf l) (systemU l) with
    | none =>
      have hs : solve l = solveTail l := by rw [solve, if_neg h, hf]
      rw [hs, solveTail_not_noBasic]
      unfold firstBadDiag at hf
      rw [List.find?_eq_none] at hf
      unfold hasZeroDiag
      symm
      rw [List.any_eq_false]
      intro r hr
      simpa using hf r hr
    | some r =>
      have hs : solve l =
          .error (.noBasicVariable ((cnodeImap l.items).getD r 0)) := by
        rw [solve, if_neg h, hf]
      have hp := List.find?_some hf
      have hm := List.mem_of_find?_eq_some hf
      rw [hs]
      unfold hasZeroDiag
      rw [show isNoBasicError (α := SolveResult)
        (.error (.noBasicVariable ((cnodeImap l.items).getD r 0))) = true
        from rfl]
      symm
      rw [List.any_eq_true]
      exact ⟨r, hm, hp⟩
  · with_unfolding_all rfl

/-- **C4** witness: the iff applied to the concrete disconnected-node
instance. -/
theorem c4_witness :
    nnodesOf ⟨[(0, 0), (1, 1), (2, 2), (3, 3)],
              [((0, 1), ⟨5, false⟩), ((1, 2), ⟨5, false⟩),
               ((0, 2), ⟨10, false⟩)]⟩ ≠ 1 ∧
    isNoBasicError (solve ⟨[(0, 0), (1, 1), (2, 2), (3, 3)],
        [((0, 1), ⟨5, false⟩), ((1, 2), ⟨5, false⟩),
         ((0, 2), ⟨10, false⟩)]⟩) =
      hasZeroDiag ⟨[(0, 0), (1, 1), (2, 2), (3, 3)],
        [((0, 1), ⟨5, false⟩), ((1, 2), ⟨5, false⟩),
         ((0, 2), ⟨10, false⟩)]⟩ :=
  ⟨by decide,
   c4_no_basic_variable.1 ⟨[(0, 0), (1, 1), (2, 2), (3, 3)],
      [((0, 1), ⟨5, false⟩), ((1, 2), ⟨5, false⟩),
       ((0, 2), ⟨10, false⟩)]⟩ (by decide)⟩

/-- **C7**: once the diagonal check passes and the basic system inverts,
`solve` always succeeds: the warning component is exactly the negative
values among the resolved stretches, and the positions/span component is
computed from the solved vector alone, unaffected by the warnings — a
negative stretch never produces an error.  On a concrete instance whose
stretch resolves to `-2`, `solve` emits that warning and still returns the
positions and span. -/
theorem c7_negative_stretch_warning :
    (∀ (l : Lineq) (Uri : Mat), nnodesOf l ≠ 1 →
      firstBadDiag (nnodesOf l) (systemU l) = none →
      invMat (systemUr l) = some Uri →
        solve l = .ok (finishSolve l Uri) ∧
        (finishSolve l Uri).1 =
          ((matVec Uri (systemBr l)).drop (nnodesOf l - 1)).filter
            (fun v => decide (v < 0)) ∧
        (finishSolve l Uri).2 = extractPos l (matVec Uri (systemBr l))) ∧
    solve ⟨[(0, 0), (1, 1), (2, 2)],
           [((0, 1), ⟨2, false⟩), ((0, 2), ⟨1, false⟩),
            ((1, 2), ⟨1, true⟩)]⟩ =
      .ok ([-2], [(0, -1), (1, 1), (2, 0)], 1) := by
  constructor
  · intro l Uri h1 h2 h3
    refine ⟨?_, rfl, rfl⟩
    rw [solve, if_neg h1, h2, solveTail, h3]
  · with_unfolding_all rfl

/-- **C7** witness: the general statement applied to the concrete
negative-stretch instance (whose basic submatrix is the identity). -/
theorem c7_witness :
    solve ⟨[(0, 0), (1, 1), (2, 2)],
           [((0, 1), ⟨2, false⟩), ((0, 2), ⟨1, false⟩),
            ((1, 2), ⟨1, true⟩)]⟩ =
      .ok (finishSolve ⟨[(0, 0), (1, 1), (2, 2)],
           [((0, 1), ⟨2, false⟩), ((0, 2), ⟨1, false⟩),
            ((1, 2), ⟨1, true⟩)]⟩ [[1, 0, 0], [0, 1, 0], [0, 0, 1]]) :=
  (c7_negative_stretch_warning.1 ⟨[(0, 0), (1, 1), (2, 2)],
      [((0, 1), ⟨2, false⟩), ((0, 2), ⟨1, false⟩), ((1, 2), ⟨1, true⟩)]⟩
    [[1, 0, 0], [0, 1, 0], [0, 0, 1]] (by decide)
    (by with_unfolding_all rfl) (by with_unfolding_all rfl)).1

/-- **C9**: with exactly one canonical node, `solve` short-circuits: every
node of the enumeration maps to coordinate 0 and the span is 0, and the
result is independent of whatever constraints are stored (the system build
and solver are skipped). -/
theorem c9_single_node_short_circuit :
    ∀ (items : List (ℕ × ℕ)) (cs cs2 : Constraints),
      (cnodeImap items).length = 1 →
        solve ⟨items, cs⟩ = .ok ([], items.map fun p => (p.1, (0 : ℚ)), 0) ∧
        solve ⟨items, cs⟩ = solve ⟨items, cs2⟩ := by
  intro items cs cs2 h
  have h1 : nnodesOf ⟨items, cs⟩ = 1 := h
  have h2 : nnodesOf ⟨items, cs2⟩ = 1 := h
  constructor
  · rw [solve, if_pos h1]
  · rw [solve, if_pos h1, solve, if_pos h2]

/-- **C9** witness: a single node with no constraints sits at coordinate 0
with span 0. -/
theorem c9_witness :
    solve ⟨[(0, 0)], []⟩ = .ok ([], [(0, (0 : ℚ))], 0) :=
  (c9_single_node_short_circuit [(0, 0)] [] [((0, 0), ⟨1, false⟩)] rfl).1

end SchemLineq
